import Mathlib

/-!
Shallow embedding of `src/vtq/coordinator/coordinator.py` (class `Coordinator`).

Modelling conventions:
* Timestamps (`time.time()`) are rationals `ℚ`; `delay_millis / 1000.0` becomes
  exact rational division.
* The SQLite store (tables `virtual_queue`, `task`, `task_error`) is a `Store`
  record of lists kept in insertion (rowid) order.  `SELECT ... ORDER BY ... .first()`
  is modelled as a fold that keeps the earliest row among full ties, matching
  SQLite's stable rowid order.
* `raise NotImplementedError` in `receive` is modelled as `Except.error ()`.
* Python `None` returned where a `bool` is expected (`requeue`'s TODO branch)
  is modelled as `Option Bool` with value `none`.
-/

namespace Vtq

/-- `_INVISIBLE_TIMESTAMP_SECONDS = 2**31 - 1` (coordinator.py line 14). -/
def INVISIBLE_TIMESTAMP_SECONDS : ℚ := 2147483647

/-- Row of the `virtual_queue` table (fields used by coordinator.py; the
`vtq.model` module itself is not under src/, its columns are those read and
written by the coordinator and described by the spec's data model). -/
structure VirtualQueue where
  name : String
  priority : Int
  bucket_name : String
  bucket_weight : Int
  visibility_timeout : ℚ
  hidden : Bool
  deriving DecidableEq, Repr

/-- Row of the `task` table.  `status` codes as used by coordinator.py:
pending `< 10` (created as 0), leased `50`, succeeded `100`, failed `101`. -/
structure TaskRow where
  id : Nat
  data : String
  vqueue_name : String
  priority : Int
  status : Nat
  visible_at : ℚ
  queued_at : ℚ
  ended_at : Option ℚ
  deriving DecidableEq, Repr

/-- Row of the `task_error` table (field spellings as in coordinator.py's
`nack`). -/
structure TaskError where
  task_id : Nat
  error_messsage : String
  happended_at : ℚ
  deriving DecidableEq, Repr

/-- The value returned to consumers: `Task(task.id, task.data)`
(coordinator.py line 158, `vtq.task.Task`). -/
structure Task where
  id : Nat
  data : String
  deriving DecidableEq, Repr

/-- The durable store: the three tables plus the id generator for new tasks. -/
structure Store where
  vqs : List VirtualQueue
  tasks : List TaskRow
  task_errors : List TaskError
  next_id : Nat
  deriving DecidableEq, Repr

/-- Lookup of a virtual queue by its `name` key. -/
def findVQ (s : Store) (name : String) : Option VirtualQueue :=
  s.vqs.find? (fun vq => vq.name == name)

/-- `_get_task_only_status`: lookup of a task row by id (coordinator.py
lines 160-166; only `id` and `status` are selected there, which the update
model below respects by touching only the fields the coordinator assigns). -/
def findTask (s : Store) (task_id : Nat) : Option TaskRow :=
  s.tasks.find? (fun t => t.id == task_id)

/-- Modelled from the spec: `vtq.coordinator.task.is_succeeded` is not under
src/.  Spec §4.4: `ack` sets the distinct terminal success code (100 in
coordinator.py), and `ack` on `FAILED` must report failure, so the predicate
tests that exact code. -/
def is_succeeded (t : TaskRow) : Bool :=
  t.status == 100

/-- Modelled from the spec: `vtq.coordinator.task.is_failed` is not under
src/.  Spec §4.4: `nack` sets the terminal failure code (101 in
coordinator.py), distinct from the success code. -/
def is_failed (t : TaskRow) : Bool :=
  t.status == 101

/-- Modelled from the spec: `vtq.coordinator.task.is_wip` is not under src/.
Spec §3: `LEASED` is "a distinguished value, commonly 50"; coordinator.py's
lease update writes `status=50`. -/
def is_wip (t : TaskRow) : Bool :=
  t.status == 50

/-- Modelled from the spec: `model.Task.is_unstarted` is not under src/.
Spec §3: `PENDING` is `< 10`, unleased/available. -/
def is_unstarted (t : TaskRow) : Bool :=
  t.status < 10

/-- Modelled from the spec: the Configuration Provider's
`policyFor(vqueueName) -> {priority, bucket_name, bucket_weight,
visibility_timeout_seconds}` (spec §6); `vtq.configuration` is not under
src/. -/
structure VQConfig where
  priority : Int
  bucket_name : String
  bucket_weight : Int
  visibility_timeout_seconds : ℚ

/-- The task row created by `task_cls.create(data=..., vqueue_name=...,
priority=..., visible_at=...)`.  Modelled from the spec for the column
defaults of the absent `vtq.model` module: a fresh unique id, `status`
PENDING (0), `queued_at` the creation timestamp, `ended_at` unset. -/
def newTaskRow (now : ℚ) (s : Store) (task_data : String) (vqueue_name : String)
    (priority : Int) (visible_at : ℚ) : TaskRow :=
  { id := s.next_id
    data := task_data
    vqueue_name := vqueue_name
    priority := priority
    status := 0
    visible_at := visible_at
    queued_at := now
    ended_at := none }

/-- `Coordinator.enqueue` (coordinator.py lines 28-75).
`visible_at = time.time() + delay_millis / 1000.0 if delay_millis else 0`;
the task insert fails on the foreign-key violation when the VQ is absent, in
which case `_enqueue_task_with_new_vq` inserts the VQ from configuration
(hidden = false, per the spec the Admission Controller alone sets `hidden`)
and retries the task insert. Returns the new task id and the new store. -/
def enqueue (cfg : String → VQConfig) (now : ℚ) (task_data : String)
    (vqueue_name : String) (priority : Int) (delay_millis : Int) (s : Store) :
    Nat × Store :=
  let visible_at : ℚ := if delay_millis ≠ 0 then now + (delay_millis : ℚ) / 1000 else 0
  let t := newTaskRow now s task_data vqueue_name priority visible_at
  match findVQ s vqueue_name with
  | some _ =>
      (t.id, { s with tasks := s.tasks ++ [t], next_id := s.next_id + 1 })
  | none =>
      let c := cfg vqueue_name
      let vq : VirtualQueue :=
        { name := vqueue_name
          priority := c.priority
          bucket_name := c.bucket_name
          bucket_weight := c.bucket_weight
          visibility_timeout := c.visibility_timeout_seconds
          hidden := false }
      (t.id, { s with
               vqs := s.vqs ++ [vq]
               tasks := s.tasks ++ [t]
               next_id := s.next_id + 1 })

/-- The `available_task_query` row predicate (coordinator.py lines 99-103):
task joined to its VQ, `(~vq.hidden) & (current_ts >= task.visible_at)`.
Note: no condition on `task.status`. -/
def availableB (now : ℚ) (s : Store) (t : TaskRow) : Bool :=
  match findVQ s t.vqueue_name with
  | some vq => !vq.hidden && decide (t.visible_at ≤ now)
  | none => false

/-- The candidate rows of `available_task_query`, in rowid order. -/
def availableTasks (now : ℚ) (s : Store) : List TaskRow :=
  s.tasks.filter (availableB now s)

/-- The priority of the VQ a task row is joined to. -/
def vqPriorityOf (s : Store) (t : TaskRow) : Option Int :=
  (findVQ s t.vqueue_name).map (fun vq => vq.priority)

/-- The VQ priorities occurring among the candidate rows. -/
def availPriorities (now : ℚ) (s : Store) : List Int :=
  (availableTasks now s).filterMap (vqPriorityOf s)

/-- `max(vq.priority)` over a list; `none` on the empty aggregate (SQL NULL). -/
def maxPrioOfList : List Int → Option Int
  | [] => none
  | p :: rest => some (rest.foldl max p)

/-- The `max_vq_priority` subquery (coordinator.py lines 105-107). -/
def maxAvailVQPriority (now : ℚ) (s : Store) : Option Int :=
  maxPrioOfList (availPriorities now s)

/-- `priority_layer_query` (coordinator.py lines 109-111): candidate rows
whose VQ priority equals the max; comparison with the NULL aggregate matches
nothing. -/
def priorityLayer (now : ℚ) (s : Store) : List TaskRow :=
  (availableTasks now s).filter
    (fun t => decide (vqPriorityOf s t = maxAvailVQPriority now s))

/-- Strict "sorts earlier" order of
`ORDER BY task.priority DESC, task.queued_at ASC`. -/
def betterTask (t b : TaskRow) : Bool :=
  decide (b.priority < t.priority) ||
    (decide (t.priority = b.priority) && decide (t.queued_at < b.queued_at))

/-- Fold keeping the row sorting earliest; on full ties the earlier rowid
wins, as in SQLite's stable ordering. -/
def pickBestAux (acc : TaskRow) : List TaskRow → TaskRow
  | [] => acc
  | t :: rest => pickBestAux (if betterTask t acc then t else acc) rest

/-- `.order_by(priority.desc(), queued_at.asc()).first()`
(coordinator.py lines 121-134). -/
def pickBest : List TaskRow → Option TaskRow
  | [] => none
  | t :: rest => some (pickBestAux t rest)

/-- The row selected by `_read`'s query pipeline (coordinator.py lines
97-134). -/
def selectTask (now : ℚ) (s : Store) : Option TaskRow :=
  pickBest (priorityLayer now s)

/-- The new `visible_at` written by the claim update:
`task.vq_visibility_timeout + current_ts`, where `vq_visibility_timeout` is
the joined VQ's `visibility_timeout` aliased in the select. -/
def claimedVisibleAt (now : ℚ) (s : Store) (chosen : TaskRow) : ℚ :=
  match findVQ s chosen.vqueue_name with
  | some vq => vq.visibility_timeout + now
  | none => now

/-- WHERE clause of the claim update (coordinator.py lines 146-156):
`(task.vqueue_name == vq_query) & (task.id == task.id) & (task.status < 10)
& (task.visible_at <= current_ts)`, where `vq_query` selects the name of the
chosen task's VQ only if that VQ is not hidden (a NULL subquery matches
nothing). -/
def claimRowMatches (now : ℚ) (s : Store) (chosen r : TaskRow) : Bool :=
  (match findVQ s chosen.vqueue_name with
   | some vq => !vq.hidden && (r.vqueue_name == chosen.vqueue_name)
   | none => false)
  && (r.id == chosen.id) && decide (r.status < 10) && decide (r.visible_at ≤ now)

/-- `task_cls.update(status=50, visible_at=...).where(...).execute()`
(coordinator.py lines 149-156): every matching row gets `status = 50` and
`visible_at = vq_visibility_timeout + current_ts`.  The affected-row count is
not inspected by the source. -/
def applyClaim (now : ℚ) (s : Store) (chosen : TaskRow) : Store :=
  { s with tasks := s.tasks.map (fun r =>
      if claimRowMatches now s chosen r then
        { r with status := 50, visible_at := claimedVisibleAt now s chosen }
      else r) }

/-- `Coordinator._read` (coordinator.py lines 91-158): select a row, run the
conditional claim update, and return `Task(task.id, task.data)` whether or
not the update matched any row; `None` only when the select was empty. -/
def _read (now : ℚ) (s : Store) : Option Task × Store :=
  match selectTask now s with
  | none => (none, s)
  | some chosen => (some ⟨chosen.id, chosen.data⟩, applyClaim now s chosen)

/-- The `while len(tasks) < max_number` loop of `Coordinator.receive`
(coordinator.py lines 79-89), with fuel `max_number - len(tasks)`.  The
`raise NotImplementedError` (line 86) reached when no task was read, none
accumulated and `wait_time_seconds > 0` is `Except.error ()`. -/
def receiveAux (now : ℚ) (wait_time_seconds : Int) :
    Nat → List Task → Store → Except Unit (List Task × Store)
  | 0, acc, s => .ok (acc, s)
  | Nat.succ n, acc, s =>
      match _read now s with
      | (some t, s₂) => receiveAux now wait_time_seconds n (acc ++ [t]) s₂
      | (none, s₂) =>
          if acc.isEmpty && decide (0 < wait_time_seconds) then .error ()
          else .ok (acc, s₂)

/-- `Coordinator.receive(max_number, wait_time_seconds)` (coordinator.py
lines 77-89). -/
def receive (now : ℚ) (max_number : Nat) (wait_time_seconds : Int) (s : Store) :
    Except Unit (List Task × Store) :=
  receiveAux now wait_time_seconds max_number [] s

/-- `Coordinator.ack` (coordinator.py lines 168-183).  `task.save()` writes
back the fields assigned on the fetched row: `status=100`,
`visible_at=_INVISIBLE_TIMESTAMP_SECONDS`, `ended_at=now`. -/
def ack (now : ℚ) (task_id : Nat) (s : Store) : Bool × Store :=
  match findTask s task_id with
  | none => (false, s)
  | some t =>
      if is_succeeded t then (true, s)
      else if !is_wip t then (false, s)
      else
        (true, { s with tasks := s.tasks.map (fun r =>
          if r.id == task_id then
            { r with
              status := 100
              visible_at := INVISIBLE_TIMESTAMP_SECONDS
              ended_at := some now }
          else r) })

/-- `Coordinator.nack` (coordinator.py lines 185-208): as `ack` but guarded
by `is_failed`/`is_wip`, writing `status=101`, and creating a `TaskError`
row exactly when `error_messsage` is non-empty. -/
def nack (now : ℚ) (task_id : Nat) (error_messsage : String) (s : Store) :
    Bool × Store :=
  match findTask s task_id with
  | none => (false, s)
  | some t =>
      if is_failed t then (true, s)
      else if !is_wip t then (false, s)
      else
        (true, { s with
          tasks := s.tasks.map (fun r =>
            if r.id == task_id then
              { r with
                status := 101
                visible_at := INVISIBLE_TIMESTAMP_SECONDS
                ended_at := some now }
            else r)
          task_errors :=
            if error_messsage ≠ "" then
              s.task_errors ++ [⟨task_id, error_messsage, now⟩]
            else s.task_errors })

/-- `Coordinator.requeue` (coordinator.py lines 210-220).  The body after the
guards is `# TODO`: Python falls off the end of the function and returns
`None` (modelled `none`) with the store untouched. -/
def requeue (task_id : Nat) (s : Store) : Option Bool × Store :=
  match findTask s task_id with
  | none => (some false, s)
  | some t =>
      if is_unstarted t then (some true, s)
      else if !is_wip t then (some false, s)
      else (none, s)

/-- Modelled from the spec: `Coordinator.retry` delegates to
`task_queue.TaskQueue.retry` (coordinator.py lines 222-225) and the
`vtq.task_queue` module is not under src/.  Spec §4.4 and §7: precondition
`status=FAILED`, effect `status=PENDING, visible_at = now (+ delay)`,
optionally append a TaskError with the message; NotFound and invalid state
report `false`, never an exception. -/
def retry (now : ℚ) (task_id : Nat) (delayMillis : Int) (error_message : String)
    (s : Store) : Bool × Store :=
  match findTask s task_id with
  | none => (false, s)
  | some t =>
      if is_failed t then
        (true, { s with
          tasks := s.tasks.map (fun r =>
            if r.id == task_id then
              { r with
                status := 0
                visible_at := now + (delayMillis : ℚ) / 1000 }
            else r)
          task_errors :=
            if error_message ≠ "" then
              s.task_errors ++ [⟨task_id, error_message, now⟩]
            else s.task_errors })
      else (false, s)

/-! ### Helper lemmas about the selection pipeline -/

/-- `b` sorts no later than `u` under `ORDER BY priority DESC, queued_at ASC`. -/
def dominates (b u : TaskRow) : Prop :=
  u.priority ≤ b.priority ∧ (u.priority = b.priority → b.queued_at ≤ u.queued_at)

theorem dominates_refl (t : TaskRow) : dominates t t :=
  ⟨le_refl _, fun _ => le_refl _⟩

theorem dominates_trans {c b u : TaskRow} (h1 : dominates c b) (h2 : dominates b u) :
    dominates c u := by
  obtain ⟨hp1, hq1⟩ := h1
  obtain ⟨hp2, hq2⟩ := h2
  refine ⟨le_trans hp2 hp1, fun he => ?_⟩
  have hbc : b.priority = c.priority := le_antisymm hp1 (he ▸ hp2)
  have hub : u.priority = b.priority := hbc ▸ he
  exact le_trans (hq1 hbc) (hq2 hub)

theorem betterTask_dominates {t b : TaskRow} (h : betterTask t b = true) :
    dominates t b := by
  simp only [betterTask, Bool.or_eq_true, Bool.and_eq_true, decide_eq_true_eq] at h
  rcases h with h | ⟨h1, h2⟩
  · exact ⟨le_of_lt h, fun he => absurd he (ne_of_lt h)⟩
  · exact ⟨le_of_eq h1.symm, fun _ => le_of_lt h2⟩

theorem not_betterTask_dominates {t b : TaskRow} (h : betterTask t b = false) :
    dominates b t := by
  simp only [betterTask, Bool.or_eq_false_iff, Bool.and_eq_false_iff,
    decide_eq_false_iff_not, not_lt] at h
  obtain ⟨h1, h2⟩ := h
  refine ⟨h1, fun he => ?_⟩
  rcases h2 with h2 | h2
  · exact absurd he h2
  · exact h2

theorem pickBestAux_spec (l : List TaskRow) : ∀ acc : TaskRow,
    dominates (pickBestAux acc l) acc ∧ ∀ u ∈ l, dominates (pickBestAux acc l) u := by
  induction l with
  | nil => exact fun acc => ⟨dominates_refl _, by simp⟩
  | cons t rest ih =>
      intro acc
      have hstep_acc : dominates (if betterTask t acc then t else acc) acc := by
        by_cases h : betterTask t acc = true
        · rw [if_pos h]; exact betterTask_dominates h
        · rw [if_neg h]; exact dominates_refl _
      have hstep_t : dominates (if betterTask t acc then t else acc) t := by
        by_cases h : betterTask t acc = true
        · rw [if_pos h]; exact dominates_refl _
        · rw [if_neg h]
          exact not_betterTask_dominates (Bool.eq_false_iff.mpr h)
      obtain ⟨h1, h2⟩ := ih (if betterTask t acc then t else acc)
      refine ⟨dominates_trans h1 hstep_acc, fun u hu => ?_⟩
      rcases List.mem_cons.mp hu with rfl | hu
      · exact dominates_trans h1 hstep_t
      · exact h2 u hu

theorem pickBestAux_mem (l : List TaskRow) : ∀ acc : TaskRow,
    pickBestAux acc l = acc ∨ pickBestAux acc l ∈ l := by
  induction l with
  | nil => exact fun acc => Or.inl rfl
  | cons t rest ih =>
      intro acc
      have hunfold : pickBestAux acc (t :: rest) =
          pickBestAux (if betterTask t acc then t else acc) rest := rfl
      rcases ih (if betterTask t acc then t else acc) with h | h
      · rw [hunfold, h]
        by_cases hb : betterTask t acc = true
        · rw [if_pos hb]; exact Or.inr (List.mem_cons_self _ _)
        · rw [if_neg hb]; exact Or.inl rfl
      · rw [hunfold]; exact Or.inr (List.mem_cons_of_mem _ h)

theorem pickBest_mem {l : List TaskRow} {b : TaskRow} (h : pickBest l = some b) :
    b ∈ l := by
  cases l with
  | nil => simp [pickBest] at h
  | cons t rest =>
      have hb : pickBestAux t rest = b := by
        simpa [pickBest] using h
      rcases pickBestAux_mem rest t with h2 | h2
      · rw [← hb, h2]; exact List.mem_cons_self _ _
      · rw [← hb]; exact List.mem_cons_of_mem _ h2

theorem pickBest_dominates {l : List TaskRow} {b : TaskRow} (h : pickBest l = some b) :
    ∀ u ∈ l, dominates b u := by
  cases l with
  | nil => simp [pickBest] at h
  | cons t rest =>
      have hb : pickBestAux t rest = b := by
        simpa [pickBest] using h
      intro u hu
      obtain ⟨h1, h2⟩ := pickBestAux_spec rest t
      rcases List.mem_cons.mp hu with rfl | hu
      · exact hb ▸ h1
      · exact hb ▸ h2 u hu

theorem le_foldl_max (l : List Int) (a : Int) : a ≤ l.foldl max a := by
  induction l generalizing a with
  | nil => exact le_refl _
  | cons p rest ih => exact le_trans (le_max_left a p) (ih (max a p))

theorem mem_le_foldl_max {l : List Int} {p : Int} (h : p ∈ l) (a : Int) :
    p ≤ l.foldl max a := by
  induction l generalizing a with
  | nil => simp at h
  | cons q rest ih =>
      rcases List.mem_cons.mp h with rfl | h
      · exact le_trans (le_max_right a p) (le_foldl_max rest (max a p))
      · exact ih h (max a q)

theorem mem_le_maxPrioOfList {l : List Int} {p : Int} (h : p ∈ l) :
    ∃ m, maxPrioOfList l = some m ∧ p ≤ m := by
  cases l with
  | nil => simp at h
  | cons q rest =>
      refine ⟨rest.foldl max q, rfl, ?_⟩
      rcases List.mem_cons.mp h with rfl | h
      · exact le_foldl_max rest p
      · exact mem_le_foldl_max h q

theorem availableB_iff {now : ℚ} {s : Store} {t : TaskRow} :
    availableB now s t = true ↔
      ∃ vq, findVQ s t.vqueue_name = some vq ∧ vq.hidden = false ∧
        t.visible_at ≤ now := by
  unfold availableB
  cases hvq : findVQ s t.vqueue_name with
  | none => simp
  | some vq =>
      simp only [Bool.and_eq_true, Bool.not_eq_true', decide_eq_true_eq,
        Option.some.injEq]
      constructor
      · exact fun ⟨h1, h2⟩ => ⟨vq, rfl, h1, h2⟩
      · rintro ⟨vq2, rfl, h1, h2⟩; exact ⟨h1, h2⟩

theorem mem_availableTasks {now : ℚ} {s : Store} {t : TaskRow} :
    t ∈ availableTasks now s ↔ t ∈ s.tasks ∧ availableB now s t = true :=
  List.mem_filter

theorem vq_priority_le_max {now : ℚ} {s : Store} {u : TaskRow} {vqu : VirtualQueue}
    (hu : u ∈ s.tasks) (hvq : findVQ s u.vqueue_name = some vqu)
    (hh : vqu.hidden = false) (hv : u.visible_at ≤ now) :
    ∃ m, maxAvailVQPriority now s = some m ∧ vqu.priority ≤ m := by
  have havail : u ∈ availableTasks now s :=
    mem_availableTasks.mpr ⟨hu, availableB_iff.mpr ⟨vqu, hvq, hh, hv⟩⟩
  have hp : vqu.priority ∈ availPriorities now s :=
    List.mem_filterMap.mpr ⟨u, havail, by simp [vqPriorityOf, hvq]⟩
  exact mem_le_maxPrioOfList hp

theorem mem_priorityLayer {now : ℚ} {s : Store} {t : TaskRow} :
    t ∈ priorityLayer now s ↔
      t ∈ availableTasks now s ∧ vqPriorityOf s t = maxAvailVQPriority now s := by
  unfold priorityLayer
  rw [List.mem_filter]
  simp

theorem read_some_select {now : ℚ} {s : Store} {tk : Task} {s₂ : Store}
    (h : _read now s = (some tk, s₂)) :
    ∃ chosen, selectTask now s = some chosen ∧ tk = ⟨chosen.id, chosen.data⟩ ∧
      s₂ = applyClaim now s chosen := by
  unfold _read at h
  cases hsel : selectTask now s with
  | none => rw [hsel] at h; simp at h
  | some chosen =>
      rw [hsel] at h
      simp only [Prod.mk.injEq, Option.some.injEq] at h
      exact ⟨chosen, rfl, h.1.symm, h.2.symm⟩

/-! ### Concrete fixtures -/

/-- A non-hidden VQ of priority 10, visibility timeout 30 s. -/
def vqQ : VirtualQueue := ⟨"q", 10, "b", 1, 30, false⟩

/-- An expired LEASED task: `status = 50`, lease ran out at time 5. -/
def rowExpiredLease : TaskRow := ⟨1, "d", "q", 50, 50, 5, 0, none⟩

def storeExpiredLease : Store := ⟨[vqQ], [rowExpiredLease], [], 2⟩

/-- A VQ with `visibility_timeout = 1` second. -/
def vqShort : VirtualQueue := ⟨"q", 10, "b", 1, 1, false⟩

/-- A freshly enqueued PENDING task, due since time 0. -/
def rowPendingDue : TaskRow := ⟨1, "d", "q", 50, 0, 0, 0, none⟩

def storePendingShort : Store := ⟨[vqShort], [rowPendingDue], [], 2⟩

/-- `storePendingShort` after the lease taken at time 1: leased until 2. -/
def storeLeasedShort : Store :=
  ⟨[vqShort], [{ rowPendingDue with status := 50, visible_at := 2 }], [], 2⟩

def storeEmpty : Store := ⟨[], [], [], 0⟩

/-- One LEASED (unexpired) task, for `requeue`/`nack`. -/
def rowLeased : TaskRow := ⟨1, "d", "q", 50, 50, 100, 0, none⟩

def storeLeased : Store := ⟨[vqQ], [rowLeased], [], 2⟩

/-! ### Claim theorems -/

/-- C1 (code bug): `receive`'s selection step `_read` returns a task even
when the atomic conditional claim affected zero rows.  On a store whose only
candidate is an expired LEASED task (selectable, since the candidate filter
has no status condition), the claim update's `status < 10` guard matches
nothing, yet `_read` returns the task and leaves the store byte-for-byte
unchanged instead of discarding the candidate and retrying. -/
theorem read_returns_task_despite_failed_claim :
    _read 10 storeExpiredLease = (some ⟨1, "d"⟩, storeExpiredLease) ∧
    (findTask storeExpiredLease 1).map (fun t => t.status) = some 50 := by
  decide

/-- C3 (code bug): leasing `rowPendingDue` at time 1 with
`visibility_timeout = 1` makes it invisible until time 2; at time 5 the
expired task is selectable again and `_read` does return it — but no fresh
lease is established: the store is unchanged, `visible_at` stays 2 rather
than becoming 5 + 1, because the claim update only matches `status < 10`. -/
theorem read_redelivers_after_expiry_without_fresh_lease :
    _read 1 storePendingShort = (some ⟨1, "d"⟩, storeLeasedShort) ∧
    _read 5 storeLeasedShort = (some ⟨1, "d"⟩, storeLeasedShort) ∧
    (findTask storeLeasedShort 1).map (fun t => t.visible_at) = some 2 := by
  refine ⟨?_, ?_, ?_⟩ <;>
    norm_num [_read, selectTask, priorityLayer, availableTasks, availableB,
      findVQ, findTask, maxAvailVQPriority, availPriorities, vqPriorityOf,
      maxPrioOfList, pickBest, pickBestAux, applyClaim, claimRowMatches,
      claimedVisibleAt, storePendingShort, storeLeasedShort, rowPendingDue,
      vqShort, List.filter, List.find?, List.filterMap, betterTask]

/-- C7 (code bug): with no eligible task, `receive` with
`wait_time_seconds = 0` returns the empty list, but with a positive wait it
raises `NotImplementedError` (modelled `Except.error ()`) instead of
suspending and then returning normally. -/
theorem receive_positive_wait_raises :
    receive 10 1 0 storeEmpty = .ok ([], storeEmpty) ∧
    receive 10 1 5 storeEmpty = .error () :=
  ⟨rfl, rfl⟩

/-- C8 (code bug): `requeue` on a LEASED task reaches the `# TODO` stub:
it returns Python `None` (not a boolean) and performs no update, instead of
setting `status = PENDING`, `visible_at = now` and returning true.  The
not-found and already-PENDING branches do return booleans as claimed. -/
theorem requeue_leased_returns_none :
    requeue 1 storeLeased = (none, storeLeased) ∧
    requeue 9 storeLeased = (some false, storeLeased) ∧
    requeue 1 storePendingShort = (some true, storePendingShort) := by
  decide

/-- C2: Strict priority layering.  Whenever the selection step `_read` of
`receive` returns a task, the returned task's row belongs to a non-hidden VQ
whose priority equals the maximum VQ priority over the candidate set
(non-hidden VQs with due tasks); in particular it is never lower than the
priority of any non-hidden VQ holding a due PENDING task. -/
theorem read_strict_priority_layering (now : ℚ) (s : Store) (tk : Task)
    (s₂ : Store) (h : _read now s = (some tk, s₂)) :
    ∃ row vq, row ∈ s.tasks ∧ row.id = tk.id ∧
      findVQ s row.vqueue_name = some vq ∧ vq.hidden = false ∧
      row.visible_at ≤ now ∧
      maxAvailVQPriority now s = some vq.priority ∧
      (∀ u vqu, u ∈ s.tasks → findVQ s u.vqueue_name = some vqu →
        vqu.hidden = false → u.visible_at ≤ now → u.status < 10 →
        vqu.priority ≤ vq.priority) := by
  obtain ⟨chosen, hsel, htk, hs⟩ := read_some_select h
  have hpick : pickBest (priorityLayer now s) = some chosen := hsel
  have hlayer : chosen ∈ priorityLayer now s := pickBest_mem hpick
  obtain ⟨havail, hmax⟩ := mem_priorityLayer.mp hlayer
  obtain ⟨hts, hb⟩ := mem_availableTasks.mp havail
  obtain ⟨vq, hvq, hh, hv⟩ := availableB_iff.mp hb
  have hprio : vqPriorityOf s chosen = some vq.priority := by
    simp [vqPriorityOf, hvq]
  have hmax2 : maxAvailVQPriority now s = some vq.priority := by
    rw [← hmax, hprio]
  refine ⟨chosen, vq, hts, by rw [htk], hvq, hh, hv, hmax2, ?_⟩
  intro u vqu hu h1 h2 h3 _
  obtain ⟨m, hm, hle⟩ := vq_priority_le_max hu h1 h2 h3
  rw [hmax2] at hm
  have he : vq.priority = m := Option.some.inj hm
  omega

/-- Witness for C2: on a store with a priority-10 VQ and a priority-5 VQ,
both with a due PENDING task, `_read` claims the priority-10 task. -/
def vqHigh : VirtualQueue := ⟨"qa", 10, "ba", 1, 30, false⟩

def vqLow : VirtualQueue := ⟨"qb", 5, "bb", 1, 30, false⟩

def rowHighDue : TaskRow := ⟨1, "a", "qa", 50, 0, 0, 0, none⟩

def rowLowDue : TaskRow := ⟨2, "b", "qb", 50, 0, 0, 0, none⟩

def storeTwoPrio : Store := ⟨[vqHigh, vqLow], [rowHighDue, rowLowDue], [], 3⟩

/-- `storeTwoPrio` after `_read` at time 10: the priority-10 task is leased
until 10 + 30. -/
def storeTwoPrioLeased : Store :=
  ⟨[vqHigh, vqLow], [{ rowHighDue with status := 50, visible_at := 40 }, rowLowDue],
   [], 3⟩

theorem read_strict_priority_layering_witness :
    _read 10 storeTwoPrio = (some ⟨1, "a"⟩, storeTwoPrioLeased) ∧
    (∃ row vq, row ∈ storeTwoPrio.tasks ∧ row.id = (1 : Nat) ∧
      findVQ storeTwoPrio row.vqueue_name = some vq ∧ vq.hidden = false ∧
      row.visible_at ≤ 10 ∧
      maxAvailVQPriority 10 storeTwoPrio = some vq.priority ∧
      (∀ u vqu, u ∈ storeTwoPrio.tasks →
        findVQ storeTwoPrio u.vqueue_name = some vqu →
        vqu.hidden = false → u.visible_at ≤ 10 → u.status < 10 →
        vqu.priority ≤ vq.priority)) := by
  have hsel : selectTask 10 storeTwoPrio = some rowHighDue := by decide
  have hvis : claimedVisibleAt 10 storeTwoPrio rowHighDue = 40 := by
    norm_num [claimedVisibleAt, findVQ, storeTwoPrio, vqHigh, vqLow,
      rowHighDue, List.find?]
  have happ : applyClaim 10 storeTwoPrio rowHighDue = storeTwoPrioLeased := by
    simp only [applyClaim]
    rw [hvis]
    decide
  have hread : _read 10 storeTwoPrio = (some ⟨1, "a"⟩, storeTwoPrioLeased) := by
    simp only [_read, hsel]
    rw [happ]
    rfl
  exact ⟨hread, read_strict_priority_layering 10 storeTwoPrio ⟨1, "a"⟩
    storeTwoPrioLeased hread⟩

/-- C6: In-layer pick order.  The row returned by `_read` has, among the
candidates of its own bucket within the top priority layer (indeed among the
whole layer, since the bucket-weighted draw is not implemented), the highest
task `priority`, with ties broken by earliest `queued_at`. -/
theorem read_in_bucket_pick_order (now : ℚ) (s : Store) (tk : Task)
    (s₂ : Store) (h : _read now s = (some tk, s₂)) :
    ∃ row, row ∈ priorityLayer now s ∧ row.id = tk.id ∧
      ∀ u ∈ priorityLayer now s,
        (findVQ s u.vqueue_name).map (fun v => v.bucket_name) =
          (findVQ s row.vqueue_name).map (fun v => v.bucket_name) →
        u.priority ≤ row.priority ∧
          (u.priority = row.priority → row.queued_at ≤ u.queued_at) := by
  obtain ⟨chosen, hsel, htk, hs⟩ := read_some_select h
  have hpick : pickBest (priorityLayer now s) = some chosen := hsel
  refine ⟨chosen, pickBest_mem hpick, by rw [htk], fun u hu _ => ?_⟩
  exact pickBest_dominates hpick u hu

/-- Witness for C6: two due PENDING tasks in one VQ with equal task priority;
`_read` picks the one queued earlier. -/
def rowLater : TaskRow := ⟨1, "c", "q", 50, 0, 0, 5, none⟩

def rowEarlier : TaskRow := ⟨2, "d", "q", 50, 0, 0, 3, none⟩

def storeFifo : Store := ⟨[vqQ], [rowLater, rowEarlier], [], 3⟩

/-- `storeFifo` after `_read` at time 10: the earlier-queued task is leased
until 10 + 30. -/
def storeFifoLeased : Store :=
  ⟨[vqQ], [rowLater, { rowEarlier with status := 50, visible_at := 40 }], [], 3⟩

theorem read_in_bucket_pick_order_witness :
    _read 10 storeFifo = (some ⟨2, "d"⟩, storeFifoLeased) ∧
    (∃ row, row ∈ priorityLayer 10 storeFifo ∧ row.id = (2 : Nat) ∧
      ∀ u ∈ priorityLayer 10 storeFifo,
        (findVQ storeFifo u.vqueue_name).map (fun v => v.bucket_name) =
          (findVQ storeFifo row.vqueue_name).map (fun v => v.bucket_name) →
        u.priority ≤ row.priority ∧
          (u.priority = row.priority → row.queued_at ≤ u.queued_at)) := by
  have hsel : selectTask 10 storeFifo = some rowEarlier := by decide
  have hvis : claimedVisibleAt 10 storeFifo rowEarlier = 40 := by
    norm_num [claimedVisibleAt, findVQ, storeFifo, vqQ, rowEarlier, List.find?]
  have happ : applyClaim 10 storeFifo rowEarlier = storeFifoLeased := by
    simp only [applyClaim]
    rw [hvis]
    decide
  have hread : _read 10 storeFifo = (some ⟨2, "d"⟩, storeFifoLeased) := by
    simp only [_read, hsel]
    rw [happ]
    rfl
  exact ⟨hread, read_in_bucket_pick_order 10 storeFifo ⟨2, "d"⟩
    storeFifoLeased hread⟩

/-! ### The receive loop -/

theorem receiveAux_succ_some {now : ℚ} {w : Int} {n : Nat} {acc : List Task}
    {s s₃ : Store} {t : Task} (hr : _read now s = (some t, s₃)) :
    receiveAux now w (n + 1) acc s = receiveAux now w n (acc ++ [t]) s₃ := by
  simp only [receiveAux, hr]

theorem receiveAux_succ_none {now : ℚ} {w : Int} {n : Nat} {acc : List Task}
    {s s₃ : Store} (hr : _read now s = (none, s₃)) :
    receiveAux now w (n + 1) acc s =
      if acc.isEmpty && decide (0 < w) then .error () else .ok (acc, s₃) := by
  simp only [receiveAux, hr]

theorem receiveAux_ok_length {now : ℚ} {w : Int} :
    ∀ (n : Nat) (acc : List Task) (s : Store) {ts : List Task} {s₂ : Store},
      receiveAux now w n acc s = .ok (ts, s₂) → ts.length ≤ acc.length + n := by
  intro n
  induction n with
  | zero =>
      intro acc s ts s₂ h
      simp only [receiveAux, Except.ok.injEq, Prod.mk.injEq] at h
      rw [← h.1]
      simp
  | succ n ih =>
      intro acc s ts s₂ h
      cases hr : _read now s with
      | mk ot s₃ =>
          cases ot with
          | some t =>
              rw [receiveAux_succ_some hr] at h
              have h2 := ih (acc ++ [t]) s₃ h
              simp only [List.length_append, List.length_singleton] at h2
              omega
          | none =>
              rw [receiveAux_succ_none hr] at h
              by_cases hb : (acc.isEmpty && decide (0 < w)) = true
              · rw [if_pos hb] at h
                exact absurd h (by simp)
              · rw [if_neg hb] at h
                simp only [Except.ok.injEq, Prod.mk.injEq] at h
                rw [← h.1]
                omega

theorem receiveAux_wait_nonpos_ok {now : ℚ} {w : Int} (hw : w ≤ 0) :
    ∀ (n : Nat) (acc : List Task) (s : Store),
      ∃ ts s₂, receiveAux now w n acc s = .ok (ts, s₂) := by
  intro n
  induction n with
  | zero => exact fun acc s => ⟨acc, s, rfl⟩
  | succ n ih =>
      intro acc s
      cases hr : _read now s with
      | mk ot s₃ =>
          cases ot with
          | some t =>
              obtain ⟨ts, s₂, h2⟩ := ih (acc ++ [t]) s₃
              exact ⟨ts, s₂, by rw [receiveAux_succ_some hr]; exact h2⟩
          | none =>
              refine ⟨acc, s₃, ?_⟩
              rw [receiveAux_succ_none hr]
              have hd : decide (0 < w) = false := by
                simp only [decide_eq_false_iff_not, not_lt]
                exact hw
              rw [hd, Bool.and_false, if_neg (by simp)]

/-- C10: the list returned by `receive` has length at most `max_number`;
with `max_number = 0` it returns `[]` at once without touching the store;
and with the default `wait_time_seconds = 0` it always returns normally
(possibly with fewer tasks than requested, possibly none). -/
theorem receive_bounded_by_max_number (now : ℚ) (max_number : Nat)
    (wait_time_seconds : Int) (s : Store) :
    receive now 0 wait_time_seconds s = .ok ([], s) ∧
    (∃ ts s₂, receive now max_number 0 s = .ok (ts, s₂) ∧ ts.length ≤ max_number) ∧
    (∀ ts s₂, receive now max_number wait_time_seconds s = .ok (ts, s₂) →
      ts.length ≤ max_number) := by
  refine ⟨rfl, ?_, ?_⟩
  · obtain ⟨ts, s₂, h⟩ := receiveAux_wait_nonpos_ok (le_refl 0) max_number [] s
    refine ⟨ts, s₂, h, ?_⟩
    have h2 := receiveAux_ok_length max_number [] s h
    simpa using h2
  · intro ts s₂ h
    have h2 := receiveAux_ok_length max_number [] s h
    simpa using h2

/-- Witness for C10: asking for up to 2 tasks with zero wait returns a list
of length 2 (and `receive` of the stuck expired-lease store re-reads the
same row, which also exhibits C1's missing zero-row check at `receive`
level). -/
theorem receive_bounded_by_max_number_witness :
    receive 10 2 0 storeExpiredLease =
      .ok ([⟨1, "d"⟩, ⟨1, "d"⟩], storeExpiredLease) ∧
    ([(⟨1, "d"⟩ : Task), ⟨1, "d"⟩]).length ≤ 2 :=
  ⟨rfl, (receive_bounded_by_max_number 10 2 0 storeExpiredLease).2.2
    [⟨1, "d"⟩, ⟨1, "d"⟩] storeExpiredLease rfl⟩

/-- C4: Error discipline of `ack`, `nack`, `requeue`, `retry`: an unknown
task id yields `false` (never an exception); a transition the current state
does not permit (`ack` on PENDING or FAILED, `nack` on PENDING or SUCCEEDED,
`requeue`/`retry` on the wrong terminal state) yields `false`; re-applying
the same terminal transition (`ack` on SUCCEEDED, `nack` on FAILED) yields
`true` and leaves the store unchanged. -/
theorem ops_error_discipline (now : ℚ) (s : Store) (task_id : Nat)
    (msg : String) (delay : Int) :
    (findTask s task_id = none →
      ack now task_id s = (false, s) ∧ nack now task_id msg s = (false, s) ∧
      requeue task_id s = (some false, s) ∧
      retry now task_id delay msg s = (false, s)) ∧
    (∀ t, findTask s task_id = some t →
      (t.status < 10 →
        ack now task_id s = (false, s) ∧ nack now task_id msg s = (false, s) ∧
        retry now task_id delay msg s = (false, s)) ∧
      (t.status = 101 → ack now task_id s = (false, s)) ∧
      (t.status = 100 →
        nack now task_id msg s = (false, s) ∧
        requeue task_id s = (some false, s) ∧
        retry now task_id delay msg s = (false, s)) ∧
      (t.status = 101 → requeue task_id s = (some false, s)) ∧
      (t.status = 100 → ack now task_id s = (true, s)) ∧
      (t.status = 101 → nack now task_id msg s = (true, s))) := by
  constructor
  · intro h
    exact ⟨by simp [ack, h], by simp [nack, h], by simp [requeue, h],
      by simp [retry, h]⟩
  · intro t ht
    refine ⟨?_, ?_, ?_, ?_, ?_, ?_⟩
    · intro h10
      have h1 : is_succeeded t = false := by
        simp only [is_succeeded, beq_eq_false_iff_ne, ne_eq]
        omega
      have h2 : is_wip t = false := by
        simp only [is_wip, beq_eq_false_iff_ne, ne_eq]
        omega
      have h3 : is_failed t = false := by
        simp only [is_failed, beq_eq_false_iff_ne, ne_eq]
        omega
      exact ⟨by simp [ack, ht, h1, h2], by simp [nack, ht, h3, h2],
        by simp [retry, ht, h3]⟩
    · intro h101
      have h1 : is_succeeded t = false := by simp [is_succeeded, h101]
      have h2 : is_wip t = false := by simp [is_wip, h101]
      simp [ack, ht, h1, h2]
    · intro h100
      have h3 : is_failed t = false := by simp [is_failed, h100]
      have h2 : is_wip t = false := by simp [is_wip, h100]
      have h4 : is_unstarted t = false := by simp [is_unstarted, h100]
      exact ⟨by simp [nack, ht, h3, h2], by simp [requeue, ht, h4, h2],
        by simp [retry, ht, h3]⟩
    · intro h101
      have h4 : is_unstarted t = false := by simp [is_unstarted, h101]
      have h2 : is_wip t = false := by simp [is_wip, h101]
      simp [requeue, ht, h4, h2]
    · intro h100
      have h1 : is_succeeded t = true := by simp [is_succeeded, h100]
      simp [ack, ht, h1]
    · intro h101
      have h3 : is_failed t = true := by simp [is_failed, h101]
      simp [nack, ht, h3]

/-- Witness for C4: a PENDING task (id 1), a SUCCEEDED task (id 2), a FAILED
task (id 3), an unknown id 9. -/
def rowPendingW : TaskRow := ⟨1, "a", "q", 50, 0, 0, 0, none⟩

def rowSucceededW : TaskRow := ⟨2, "b", "q", 50, 100, 2147483647, 0, some 3⟩

def rowFailedW : TaskRow := ⟨3, "c", "q", 50, 101, 2147483647, 0, some 3⟩

def storeMixed : Store := ⟨[vqQ], [rowPendingW, rowSucceededW, rowFailedW], [], 4⟩

theorem ops_error_discipline_witness :
    (findTask storeMixed 9 = none ∧ ack 7 9 storeMixed = (false, storeMixed) ∧
      nack 7 9 "m" storeMixed = (false, storeMixed) ∧
      requeue 9 storeMixed = (some false, storeMixed) ∧
      retry 7 9 0 "m" storeMixed = (false, storeMixed)) ∧
    (findTask storeMixed 1 = some rowPendingW ∧
      ack 7 1 storeMixed = (false, storeMixed) ∧
      nack 7 1 "m" storeMixed = (false, storeMixed)) ∧
    (findTask storeMixed 2 = some rowSucceededW ∧
      ack 7 2 storeMixed = (true, storeMixed) ∧
      nack 7 2 "m" storeMixed = (false, storeMixed)) ∧
    (findTask storeMixed 3 = some rowFailedW ∧
      nack 7 3 "m" storeMixed = (true, storeMixed) ∧
      ack 7 3 storeMixed = (false, storeMixed)) := by
  have hnone := (ops_error_discipline 7 storeMixed 9 "m" 0).1 (by decide)
  have hpend := (ops_error_discipline 7 storeMixed 1 "m" 0).2 rowPendingW (by decide)
  have hsucc := (ops_error_discipline 7 storeMixed 2 "m" 0).2 rowSucceededW (by decide)
  have hfail := (ops_error_discipline 7 storeMixed 3 "m" 0).2 rowFailedW (by decide)
  refine ⟨⟨by decide, hnone.1, hnone.2.1, hnone.2.2.1, hnone.2.2.2⟩, ?_, ?_, ?_⟩
  · exact ⟨by decide, (hpend.1 (by decide)).1, (hpend.1 (by decide)).2.1⟩
  · exact ⟨by decide, hsucc.2.2.2.2.1 rfl, (hsucc.2.2.1 rfl).1⟩
  · exact ⟨by decide, hfail.2.2.2.2.2 rfl, hfail.2.1 rfl⟩

/-- C5: `nack` on a LEASED task returns true, atomically rewrites the task to
the FAILED status code (distinct from the SUCCEEDED one), pins `visible_at`
to the infinite-future sentinel, sets `ended_at` to now, and appends exactly
one `TaskError` record if and only if the message is non-empty. -/
theorem nack_on_leased_fails_task (now : ℚ) (s : Store) (task_id : Nat)
    (msg : String) (t : TaskRow) (hf : findTask s task_id = some t)
    (hw : t.status = 50) :
    ∃ s₂, nack now task_id msg s = (true, s₂) ∧
      s₂.vqs = s.vqs ∧
      s₂.tasks = s.tasks.map (fun r =>
        if r.id == task_id then
          { r with
            status := 101
            visible_at := INVISIBLE_TIMESTAMP_SECONDS
            ended_at := some now }
        else r) ∧
      (∀ r ∈ s₂.tasks, r.id = task_id →
        is_failed r = true ∧ is_succeeded r = false ∧
        r.visible_at = INVISIBLE_TIMESTAMP_SECONDS ∧ r.ended_at = some now) ∧
      s₂.task_errors = (if msg = "" then s.task_errors
        else s.task_errors ++ [⟨task_id, msg, now⟩]) := by
  have h1 : is_failed t = false := by simp [is_failed, hw]
  have h2 : is_wip t = true := by simp [is_wip, hw]
  refine ⟨{ s with
      tasks := s.tasks.map (fun r =>
        if r.id == task_id then
          { r with
            status := 101
            visible_at := INVISIBLE_TIMESTAMP_SECONDS
            ended_at := some now }
        else r)
      task_errors := if msg ≠ "" then s.task_errors ++ [⟨task_id, msg, now⟩]
        else s.task_errors }, ?_, rfl, rfl, ?_, ?_⟩
  · simp [nack, hf, h1, h2]
  · intro r hr hid
    obtain ⟨r0, hr0, heq⟩ := List.mem_map.mp hr
    by_cases hb : (r0.id == task_id) = true
    · rw [if_pos hb] at heq
      rw [← heq]
      refine ⟨rfl, ?_, rfl, rfl⟩
      simp [is_succeeded]
    · rw [if_neg hb] at heq
      rw [heq] at hb
      exact absurd (by simp [hid]) hb
  · by_cases hm : msg = ""
    · simp [hm]
    · simp [hm]

/-- Witness for C5: `nack` of the LEASED task of `storeLeased` with message
"boom". -/
theorem nack_on_leased_fails_task_witness :
    findTask storeLeased 1 = some rowLeased ∧ rowLeased.status = 50 ∧
    (∃ s₂, nack 7 1 "boom" storeLeased = (true, s₂) ∧
      s₂.vqs = storeLeased.vqs ∧
      s₂.tasks = storeLeased.tasks.map (fun r =>
        if r.id == 1 then
          { r with
            status := 101
            visible_at := INVISIBLE_TIMESTAMP_SECONDS
            ended_at := some 7 }
        else r) ∧
      (∀ r ∈ s₂.tasks, r.id = 1 →
        is_failed r = true ∧ is_succeeded r = false ∧
        r.visible_at = INVISIBLE_TIMESTAMP_SECONDS ∧ r.ended_at = some 7) ∧
      s₂.task_errors = (if "boom" = "" then storeLeased.task_errors
        else storeLeased.task_errors ++ [⟨1, "boom", 7⟩])) :=
  ⟨by decide, rfl,
    nack_on_leased_fails_task 7 storeLeased 1 "boom" rowLeased (by decide) rfl⟩

/-! ### Enqueue -/

theorem enqueue_result (cfg : String → VQConfig) (now : ℚ)
    (task_data vqueue_name : String) (priority delay_millis : Int) (s : Store) :
    ∃ s₂, enqueue cfg now task_data vqueue_name priority delay_millis s =
        ((newTaskRow now s task_data vqueue_name priority
          (if delay_millis ≠ 0 then now + (delay_millis : ℚ) / 1000 else 0)).id,
          s₂) ∧
      s₂.tasks = s.tasks ++ [newTaskRow now s task_data vqueue_name priority
        (if delay_millis ≠ 0 then now + (delay_millis : ℚ) / 1000 else 0)] := by
  cases hvq : findVQ s vqueue_name with
  | some vq =>
      refine ⟨{ s with tasks := s.tasks ++ [newTaskRow now s task_data vqueue_name priority (if delay_millis ≠ 0 then now + (delay_millis : ℚ) / 1000 else 0)], next_id := s.next_id + 1 }, ?_, rfl⟩
      simp only [enqueue]
      rw [hvq]
  | none =>
      refine ⟨{ s with vqs := s.vqs ++ [{ name := vqueue_name, priority := (cfg vqueue_name).priority, bucket_name := (cfg vqueue_name).bucket_name, bucket_weight := (cfg vqueue_name).bucket_weight, visibility_timeout := (cfg vqueue_name).visibility_timeout_seconds, hidden := false }], tasks := s.tasks ++ [newTaskRow now s task_data vqueue_name priority (if delay_millis ≠ 0 then now + (delay_millis : ℚ) / 1000 else 0)], next_id := s.next_id + 1 }, ?_, rfl⟩
      simp only [enqueue]
      rw [hvq]

theorem read_some_candidate {now : ℚ} {s : Store} {tk : Task} {s₃ : Store}
    (h : _read now s = (some tk, s₃)) :
    ∃ row, row ∈ s.tasks ∧ row.id = tk.id ∧ row.visible_at ≤ now := by
  obtain ⟨chosen, hsel, htk, _⟩ := read_some_select h
  have hlayer : chosen ∈ priorityLayer now s :=
    pickBest_mem (hsel : pickBest (priorityLayer now s) = some chosen)
  obtain ⟨havail, _⟩ := mem_priorityLayer.mp hlayer
  obtain ⟨hts, hb⟩ := mem_availableTasks.mp havail
  obtain ⟨vq, _, _, hv⟩ := availableB_iff.mp hb
  exact ⟨chosen, hts, by rw [htk], hv⟩

/-- C9 (counterexample): at creation time 1000 with no delay, the created
task's `visible_at` is 0 (the epoch), not the creation time 1000 — the
source computes `time.time() + delay_millis / 1000.0 if delay_millis else
0`. -/
def cfgQ : String → VQConfig := fun _ => ⟨7, "bk", 3, 9⟩

def storeNoTasks : Store := ⟨[vqQ], [], [], 1⟩

theorem enqueue_no_delay_visible_at_epoch :
    (findTask (enqueue cfgQ 1000 "d" "q" 50 0 storeNoTasks).2
        (enqueue cfgQ 1000 "d" "q" 50 0 storeNoTasks).1).map
      (fun t => t.visible_at) = some 0 ∧ (0 : ℚ) ≠ 1000 := by
  decide

/-- C9 (amended): the created task's `visible_at` is 0 — hence immediately
due — when `delay_millis = 0`, and `now + delay_millis / 1000` when
`delay_millis ≠ 0`; consequently, with a positive delay, `_read` (hence
`receive`) never returns the new task before `now + delay_millis / 1000`. -/
theorem enqueue_delay_respected (cfg : String → VQConfig) (now : ℚ)
    (task_data vqueue_name : String) (priority delay_millis : Int) (s : Store)
    (hid : ∀ r ∈ s.tasks, r.id ≠ s.next_id) :
    ∃ t s₂, enqueue cfg now task_data vqueue_name priority delay_millis s =
        (t.id, s₂) ∧
      s₂.tasks = s.tasks ++ [t] ∧ t.id = s.next_id ∧
      t.visible_at =
        (if delay_millis ≠ 0 then now + (delay_millis : ℚ) / 1000 else 0) ∧
      (0 < delay_millis → ∀ now₂ tk s₃,
        now₂ < now + (delay_millis : ℚ) / 1000 →
        _read now₂ s₂ = (some tk, s₃) → tk.id ≠ t.id) := by
  obtain ⟨s₂, henq, hts⟩ :=
    enqueue_result cfg now task_data vqueue_name priority delay_millis s
  refine ⟨newTaskRow now s task_data vqueue_name priority
    (if delay_millis ≠ 0 then now + (delay_millis : ℚ) / 1000 else 0),
    s₂, henq, hts, rfl, rfl, ?_⟩
  intro hd now₂ tk s₃ hlt hread heq
  obtain ⟨row, hrow, hrid, hrv⟩ := read_some_candidate hread
  rw [hts] at hrow
  rcases List.mem_append.mp hrow with hmem | hmem
  · exact hid row hmem (hrid.trans heq)
  · have hrt := List.mem_singleton.mp hmem
    have hvis : row.visible_at = now + (delay_millis : ℚ) / 1000 := by
      rw [hrt]
      simp only [newTaskRow]
      rw [if_pos (by omega)]
    rw [hvis] at hrv
    linarith

/-- Witness for C9: enqueue with a 5000 ms delay at time 1000 into a store
holding one other due task; the created task has `visible_at = 1005`. -/
def storeOneDue : Store := ⟨[vqQ], [⟨1, "old", "q", 50, 0, 0, 0, none⟩], [], 2⟩

theorem enqueue_delay_respected_witness :
    (∀ r ∈ storeOneDue.tasks, r.id ≠ storeOneDue.next_id) ∧
    (∃ t s₂, enqueue cfgQ 1000 "d" "q" 50 5000 storeOneDue = (t.id, s₂) ∧
      s₂.tasks = storeOneDue.tasks ++ [t] ∧ t.id = storeOneDue.next_id ∧
      t.visible_at =
        (if (5000 : Int) ≠ 0 then (1000 : ℚ) + ((5000 : Int) : ℚ) / 1000 else 0) ∧
      (0 < (5000 : Int) → ∀ now₂ tk s₃,
        now₂ < (1000 : ℚ) + ((5000 : Int) : ℚ) / 1000 →
        _read now₂ s₂ = (some tk, s₃) → tk.id ≠ t.id)) :=
  ⟨by decide,
    enqueue_delay_respected cfgQ 1000 "d" "q" 50 5000 storeOneDue (by decide)⟩

end Vtq
